import Mathlib

/-!
# A verification model of the git-snap snapshot engine

This file gives a shallow embedding, in Lean 4, of the parts of the
git-snap repository that its specification talks about: the text-extension
classifier (util/extension.go), the glob filter pipeline and snapshot loop
(git/git.go), the discrepancy double-check retry loop (git/git.go,
Snapshot), the stats aggregator (stats/stats.go), and the block-comment
start heuristic of the LOC counter.

Go strings are modelled as lists of bytes (each byte a Nat < 256), so that
byte-length checks and UTF-8 validity checks mean exactly what they mean in
the Go source.  Compiled glob patterns are modelled as opaque matchers
(functions from byte strings to Bool), mirroring how git.go only ever calls
pattern.Match on them.
-/

set_option autoImplicit false
set_option maxRecDepth 8000

/-- A Go string: a sequence of bytes.  (Go strings are byte slices; indexing
and len are byte-wise.) -/
abbrev GoStr := List Nat

/-- Encode an ASCII Lean string as a Go byte string.  Valid (equal to the
UTF-8 encoding) whenever every character is ASCII, which holds for every
concrete example used below. -/
def asciiStr (s : String) : GoStr := s.data.map Char.toNat

/-- A UTF-8 continuation byte: 0x80..0xBF. -/
def contByte (b : Nat) : Bool := 128 ≤ b && b ≤ 191

/-- Model of Go unicode/utf8.ValidString: RFC 3629 UTF-8 validity of a byte
sequence (shortest forms only, no surrogates, max U+10FFFF). -/
def utf8Valid : List Nat → Bool
  | [] => true
  | b :: rest =>
    if b < 128 then utf8Valid rest
    else if b < 194 then false
    else if b < 224 then
      match rest with
      | c1 :: r => contByte c1 && utf8Valid r
      | [] => false
    else if b = 224 then
      match rest with
      | c1 :: c2 :: r => (160 ≤ c1 && c1 ≤ 191) && contByte c2 && utf8Valid r
      | _ => false
    else if b = 237 then
      match rest with
      | c1 :: c2 :: r => (128 ≤ c1 && c1 ≤ 159) && contByte c2 && utf8Valid r
      | _ => false
    else if b < 240 then
      match rest with
      | c1 :: c2 :: r => contByte c1 && contByte c2 && utf8Valid r
      | _ => false
    else if b = 240 then
      match rest with
      | c1 :: c2 :: c3 :: r =>
        (144 ≤ c1 && c1 ≤ 191) && contByte c2 && contByte c3 && utf8Valid r
      | _ => false
    else if b < 244 then
      match rest with
      | c1 :: c2 :: c3 :: r =>
        contByte c1 && contByte c2 && contByte c3 && utf8Valid r
      | _ => false
    else if b = 244 then
      match rest with
      | c1 :: c2 :: c3 :: r =>
        (128 ≤ c1 && c1 ≤ 143) && contByte c2 && contByte c3 && utf8Valid r
      | _ => false
    else false

/-- Model of Go strings.ToLower restricted to its ASCII case table.  The
theorems below hold for any case-normalization map, so the non-ASCII part
of the Go table is irrelevant to them. -/
def toLowerGo (p : GoStr) : GoStr :=
  p.map (fun b => if 65 ≤ b && b ≤ 90 then b + 32 else b)

/-- Helper for goFilepathExt: scan the reversed path; stop at a path
separator, return the suffix from the last dot of the final element. -/
def extScan : List Nat → List Nat → List Nat
  | [], _ => []
  | b :: rest, acc =>
    if b = 47 then []
    else if b = 46 then b :: acc
    else extScan rest (b :: acc)

/-- Model of Go path/filepath.Ext: the suffix of the final path element
beginning at its final dot; empty if there is no dot. -/
def goFilepathExt (p : GoStr) : GoStr := extScan p.reverse []

/-- Strip trailing path separators (first step of filepath.Base). -/
def dropTrailingSlashes (p : GoStr) : GoStr :=
  (p.reverse.dropWhile (fun b => b == 47)).reverse

/-- The final path element: everything after the last separator. -/
def afterLastSlash (p : GoStr) : GoStr :=
  (p.reverse.takeWhile (fun b => b != 47)).reverse

/-- Model of Go path/filepath.Base on Unix separators. -/
def goFilepathBase (p : GoStr) : GoStr :=
  if p = [] then [46]
  else
    let q := dropTrailingSlashes p
    let r := afterLastSlash q
    if r = [] then [47] else r

/-! ## util/extension.go: the binary-extension table -/

/-- The extension table of util/extension.go (current revision), in source
order. -/
def binaryExtensions : List GoStr :=
  [asciiStr "7z", asciiStr "aac", asciiStr "ai", asciiStr "apk",
   asciiStr "ar", asciiStr "avi", asciiStr "bin", asciiStr "bmp",
   asciiStr "bz2", asciiStr "cab", asciiStr "cbr", asciiStr "cbz",
   asciiStr "crx", asciiStr "css", asciiStr "deb", asciiStr "dmg",
   asciiStr "doc", asciiStr "docx", asciiStr "dwg", asciiStr "dxf",
   asciiStr "ebook", asciiStr "egg", asciiStr "eot", asciiStr "eps",
   asciiStr "epub", asciiStr "exe", asciiStr "flac", asciiStr "flv",
   asciiStr "gif", asciiStr "gpx", asciiStr "gz", asciiStr "htm",
   asciiStr "html", asciiStr "iso", asciiStr "jpeg", asciiStr "jpg",
   asciiStr "kml", asciiStr "kmz", asciiStr "m4a", asciiStr "mkv",
   asciiStr "mobi", asciiStr "mov", asciiStr "mp3", asciiStr "mp4",
   asciiStr "mpeg", asciiStr "mpg", asciiStr "msg", asciiStr "msi",
   asciiStr "odp", asciiStr "ods", asciiStr "ogg", asciiStr "ogm",
   asciiStr "otf", asciiStr "pak", asciiStr "pdf", asciiStr "pickle",
   asciiStr "pkl", asciiStr "png", asciiStr "ppt", asciiStr "ps",
   asciiStr "psd", asciiStr "rar", asciiStr "rpm", asciiStr "rst",
   asciiStr "rtf", asciiStr "s7z", asciiStr "shar", asciiStr "sketch",
   asciiStr "svg", asciiStr "tar", asciiStr "tbz2", asciiStr "tgz",
   asciiStr "tif", asciiStr "tiff", asciiStr "tlz", asciiStr "ttf",
   asciiStr "war", asciiStr "wav", asciiStr "webp", asciiStr "whl",
   asciiStr "wma", asciiStr "wmv", asciiStr "woff", asciiStr "woff2",
   asciiStr "xls", asciiStr "xlsx", asciiStr "xpi", asciiStr "zip",
   asciiStr "zipx"]

/-- util/extension.go NotTextExt (current revision): a path with no
extension yields true; otherwise the extension without its leading dot is
looked up in the table. -/
def NotTextExt (ext : GoStr) : Bool :=
  if ext.length = 0 then true
  else binaryExtensions.contains (ext.drop 1)

/-- The extension table of the earlier revision of util/extension.go kept
in the repository (no css/htm/html entries), in source order. -/
def binaryExtensionsPrior : List GoStr :=
  [asciiStr "7z", asciiStr "aac", asciiStr "ai", asciiStr "apk",
   asciiStr "ar", asciiStr "avi", asciiStr "bin", asciiStr "bmp",
   asciiStr "bz2", asciiStr "cab", asciiStr "cbr", asciiStr "cbz",
   asciiStr "crx", asciiStr "deb", asciiStr "dmg", asciiStr "doc",
   asciiStr "docx", asciiStr "dwg", asciiStr "dxf", asciiStr "ebook",
   asciiStr "egg", asciiStr "eot", asciiStr "eps", asciiStr "epub",
   asciiStr "exe", asciiStr "flac", asciiStr "flv", asciiStr "gif",
   asciiStr "gpx", asciiStr "gz", asciiStr "iso", asciiStr "jpeg",
   asciiStr "jpg", asciiStr "kml", asciiStr "kmz", asciiStr "m4a",
   asciiStr "mkv", asciiStr "mobi", asciiStr "mov", asciiStr "mp3",
   asciiStr "mp4", asciiStr "mpeg", asciiStr "mpg", asciiStr "msg",
   asciiStr "msi", asciiStr "odp", asciiStr "ods", asciiStr "ogg",
   asciiStr "ogm", asciiStr "otf", asciiStr "pak", asciiStr "pdf",
   asciiStr "pickle", asciiStr "pkl", asciiStr "png", asciiStr "ppt",
   asciiStr "ps", asciiStr "psd", asciiStr "rar", asciiStr "rpm",
   asciiStr "rst", asciiStr "rtf", asciiStr "s7z", asciiStr "shar",
   asciiStr "sketch", asciiStr "svg", asciiStr "tar", asciiStr "tbz2",
   asciiStr "tgz", asciiStr "tif", asciiStr "tiff", asciiStr "tlz",
   asciiStr "ttf", asciiStr "war", asciiStr "wav", asciiStr "webp",
   asciiStr "whl", asciiStr "wma", asciiStr "wmv", asciiStr "woff",
   asciiStr "woff2", asciiStr "xls", asciiStr "xlsx", asciiStr "xpi",
   asciiStr "zip", asciiStr "zipx"]

/-- NotTextExt of the earlier revision of util/extension.go kept in the
repository: a path with no extension yields false (treated as text), per
its source comment. -/
def notTextExtPrior (ext : GoStr) : Bool :=
  if ext.length = 0 then false
  else binaryExtensionsPrior.contains (ext.drop 1)

/-! ## git/git.go: compiled patterns, tree entries, options -/

/-- A compiled glob pattern, modelled as the opaque matcher git.go consults
via pattern.Match. -/
abbrev Pat := GoStr → Bool

/-- git.go matches: true iff some pattern in the list matches the path. -/
def matchesPats (filePath : GoStr) (patterns : List Pat) : Bool :=
  patterns.any (fun pattern => pattern filePath)

/-- The aspects of go-git's filemode.FileMode that git.go consults:
mode.IsFile(), mode.IsMalformed(), and the provider's isSymlink test. -/
structure FileModeGo where
  isFile : Bool
  isMalformed : Bool
  isSymlink : Bool
  deriving DecidableEq

/-- The error classes of object.GetBlob that git.go distinguishes. -/
inductive BlobErr
  | objectNotFound
  | packfileNotFound
  | other
  deriving DecidableEq

/-- Outcome of object.GetBlob for an entry's hash: the blob (with its size)
or one of the error classes. -/
inductive BlobOutcome
  | ok (size : Int)
  | err (e : BlobErr)
  deriving DecidableEq

/-- Outcome of provider.writeFile for an entry, as classified by the source:
written (true, nil), a logged filesystem skip for ENAMETOOLONG/EINVAL
(false, nil), or a fatal error. -/
inductive WriteOutcome
  | written
  | skippedFs
  | failed
  deriving DecidableEq

/-- A tree entry as produced by the walker, together with the environment's
responses to the effects the loop performs on it (blob load, file write). -/
structure TreeEntry where
  name : GoStr
  mode : FileModeGo
  hashHex : GoStr
  blob : BlobOutcome
  writeOutcome : WriteOutcome
  deriving DecidableEq

/-- The options consulted by shouldWriteFile and the snapshot loop
(options.Options, restricted to the fields git.go reads). -/
structure Options where
  includePatterns : List Pat
  excludePatterns : List Pat
  fileListToSnap : List GoStr
  ignoreCasePatterns : Bool
  textFilesOnly : Bool
  maxFileSizeBytes : Int
  skipDoubleCheck : Bool

/-- git.go isFileInList: the path is in the paths-file whitelist, or the
whitelist is empty. -/
def isFileInList (opts : Options) (filePathToCheck : GoStr) : Bool :=
  opts.fileListToSnap.contains filePathToCheck ||
    opts.fileListToSnap.length == 0

/-- git.go shouldWriteFile's filePathToCheck: the path, lowercased when
ignore-case matching is on. -/
def filePathToCheck (opts : Options) (filePath : GoStr) : GoStr :=
  if opts.ignoreCasePatterns then toLowerGo filePath else filePath

/-- The cheap (pre-blob) filters of git.go shouldWriteFile, in source
order: mode, UTF-8 validity, paths-file whitelist, include patterns,
exclude patterns (guarded by the skip flag), text-extension check.
True iff control reaches the object.GetBlob call. -/
def preBlobPass (opts : Options) (entry : TreeEntry) : Bool :=
  let filePath := entry.name
  let mode := entry.mode
  if !mode.isFile || mode.isMalformed || mode.isSymlink then false
  else if !utf8Valid filePath then false
  else
    let checkPath := filePathToCheck opts filePath
    if !isFileInList opts checkPath then false
    else
      let hasIncludePatterns := !opts.includePatterns.isEmpty
      if hasIncludePatterns && !matchesPats checkPath opts.includePatterns then
        false
      else
        let skip := !hasIncludePatterns
        if !opts.excludePatterns.isEmpty &&
            matchesPats checkPath opts.excludePatterns && skip then
          false
        else if opts.textFilesOnly && NotTextExt (goFilepathExt checkPath) then
          false
        else true

/-- The size filter of git.go shouldWriteFile (line 283): skip when a limit
is configured and the blob size is at least the limit. -/
def sizeFilterSkips (maxFileSizeBytes size : Int) : Bool :=
  decide (maxFileSizeBytes > 0) && decide (size ≥ maxFileSizeBytes)

/-- The length check of git.go shouldWriteFile (line 290): base name over
255 bytes or full path over 4095 bytes. -/
def nameTooLong (filePath : GoStr) : Bool :=
  decide (255 < (goFilepathBase filePath).length) ||
    decide (4095 < filePath.length)

/-- Result of shouldWriteFile: (false, nil, nil) / (true, file, nil) /
(false, nil, err). -/
inductive ShouldWriteResult
  | skip
  | write (size : Int)
  | err (e : BlobErr)
  deriving DecidableEq

/-- git.go shouldWriteFile: cheap filters, then blob load, then size
filter, then the length check (in this order, as in the source). -/
def shouldWriteFile (opts : Options) (entry : TreeEntry) : ShouldWriteResult :=
  if !preBlobPass opts entry then .skip
  else
    match entry.blob with
    | .err e => .err e
    | .ok size =>
      if sizeFilterSkips opts.maxFileSizeBytes size then .skip
      else if nameTooLong entry.name then .skip
      else .write size

/-! ## Helper lemmas for the filter pipeline -/

/-- With a non-empty include list the skip flag is false, so the exclude
branch of shouldWriteFile cannot fire: the cheap filters give the same
verdict for any exclude list as for none. -/
theorem preBlobPass_exclude_irrelevant (opts : Options) (entry : TreeEntry)
    (excl : List Pat) (h : opts.includePatterns ≠ []) :
    preBlobPass { opts with excludePatterns := excl } entry =
      preBlobPass { opts with excludePatterns := [] } entry := by
  have hinc : opts.includePatterns.isEmpty = false :=
    List.isEmpty_eq_false.mpr h
  simp [preBlobPass, filePathToCheck, isFileInList, hinc]

/-- matchesPats only depends on the set of patterns: permuting the list
does not change the result. -/
theorem matchesPats_perm {l1 l2 : List Pat} (hp : l1.Perm l2) (q : GoStr) :
    matchesPats q l1 = matchesPats q l2 := by
  rw [Bool.eq_iff_iff]
  simp only [matchesPats, List.any_eq_true]
  constructor
  · rintro ⟨g, hg, hq⟩
    exact ⟨g, hp.mem_iff.mp hg, hq⟩
  · rintro ⟨g, hg, hq⟩
    exact ⟨g, hp.mem_iff.mpr hg, hq⟩

/-- The cheap filters consult the pattern lists only through matchesPats
and emptiness, both invariant under permutation. -/
theorem preBlobPass_perm (opts : Options) (entry : TreeEntry)
    (inc2 exc2 : List Pat) (hi : opts.includePatterns.Perm inc2)
    (he : opts.excludePatterns.Perm exc2) :
    preBlobPass opts entry =
      preBlobPass { opts with includePatterns := inc2,
                              excludePatterns := exc2 } entry := by
  simp only [preBlobPass, filePathToCheck, isFileInList,
    hi.isEmpty_eq, he.isEmpty_eq,
    matchesPats_perm hi, matchesPats_perm he]

/-- shouldWriteFile is preBlobPass followed by exclude-independent steps. -/
theorem shouldWriteFile_perm (opts : Options) (entry : TreeEntry)
    (inc2 exc2 : List Pat) (hi : opts.includePatterns.Perm inc2)
    (he : opts.excludePatterns.Perm exc2) :
    shouldWriteFile opts entry =
      shouldWriteFile { opts with includePatterns := inc2,
                                  excludePatterns := exc2 } entry := by
  simp only [shouldWriteFile, preBlobPass_perm opts entry inc2 exc2 hi he]

/-! ## Concrete fixtures used by witnesses and counterexamples -/

/-- A concrete compiled pattern: matches exactly the path "a". -/
def patA : Pat := fun p => p == asciiStr "a"

/-- A concrete compiled pattern: matches exactly the path "b". -/
def patB : Pat := fun p => p == asciiStr "b"

/-- Options with no filters configured. -/
def optsPlain : Options :=
  { includePatterns := [], excludePatterns := [], fileListToSnap := [],
    ignoreCasePatterns := false, textFilesOnly := false,
    maxFileSizeBytes := 0, skipDoubleCheck := false }

/-- Options whose include list matches the path "a". -/
def optsIncA : Options :=
  { optsPlain with includePatterns := [patA] }

/-- A regular file entry named "a" with a loadable 5-byte blob. -/
def entryA : TreeEntry :=
  { name := asciiStr "a", mode := ⟨true, false, false⟩,
    hashHex := asciiStr "ff01", blob := .ok 5, writeOutcome := .written }

/-- A directory entry named "d". -/
def entryDirD : TreeEntry :=
  { name := asciiStr "d", mode := ⟨false, false, false⟩,
    hashHex := asciiStr "dd01", blob := .err .objectNotFound,
    writeOutcome := .written }

/-- A regular file entry whose base name is 300 bytes long and whose blob
load fails with packfile-not-found. -/
def entryLongName : TreeEntry :=
  { name := List.replicate 300 97, mode := ⟨true, false, false⟩,
    hashHex := asciiStr "ee01", blob := .err .packfileNotFound,
    writeOutcome := .written }

/-! ## C1: include wins over exclude -/

/-- C1: for every candidate path, when the include pattern list is
non-empty and some include pattern matches the (case-normalized) path, the
exclude patterns cannot cause the entry to be rejected — the verdict is the
same as with no exclude patterns at all; and whenever the exclude list
makes any difference to the verdict, the include list must be empty. -/
theorem include_wins_over_exclude (opts : Options) (entry : TreeEntry)
    (excl : List Pat) :
    (opts.includePatterns ≠ [] →
      matchesPats (filePathToCheck opts entry.name) opts.includePatterns
        = true →
      shouldWriteFile { opts with excludePatterns := excl } entry =
        shouldWriteFile { opts with excludePatterns := [] } entry) ∧
    (shouldWriteFile { opts with excludePatterns := excl } entry ≠
        shouldWriteFile { opts with excludePatterns := [] } entry →
      opts.includePatterns = []) := by
  have key : opts.includePatterns ≠ [] →
      shouldWriteFile { opts with excludePatterns := excl } entry =
        shouldWriteFile { opts with excludePatterns := [] } entry := by
    intro h
    simp only [shouldWriteFile,
      preBlobPass_exclude_irrelevant opts entry excl h]
  refine ⟨fun h _ => key h, fun hne => ?_⟩
  by_contra h
  exact hne (key h)

/-- Witness for C1 at a concrete input: include [patA] matches "a", and the
verdict with exclude [patA] equals the verdict with no excludes. -/
theorem include_wins_over_exclude_witness :
    shouldWriteFile { optsIncA with excludePatterns := [patA] } entryA =
      shouldWriteFile { optsIncA with excludePatterns := [] } entryA :=
  (include_wins_over_exclude optsIncA entryA [patA]).1
    (by simp [optsIncA, optsPlain]) (by decide)

/-! ## C10: pattern-match decision is order-insensitive -/

/-- C10: matches(path, patterns) is true iff at least one pattern in the
list matches the path; the result is unchanged under permutation and under
duplication of the list; consequently the whole filter verdict of
shouldWriteFile is unchanged when the include and exclude lists are
permuted. -/
theorem matches_decision_order_insensitive (p : GoStr) (pats : List Pat) :
    (matchesPats p pats = true ↔ ∃ g ∈ pats, g p = true) ∧
    (∀ pats2, pats.Perm pats2 →
      matchesPats p pats = matchesPats p pats2) ∧
    (matchesPats p (pats ++ pats) = matchesPats p pats) ∧
    (∀ (opts : Options) (entry : TreeEntry) (inc2 exc2 : List Pat),
      opts.includePatterns.Perm inc2 → opts.excludePatterns.Perm exc2 →
      shouldWriteFile opts entry =
        shouldWriteFile { opts with includePatterns := inc2,
                                    excludePatterns := exc2 } entry) := by
  refine ⟨?_, ?_, ?_, ?_⟩
  · simp [matchesPats, List.any_eq_true]
  · exact fun pats2 hp => matchesPats_perm hp p
  · simp [matchesPats, List.any_append]
  · exact fun opts entry inc2 exc2 hi he =>
      shouldWriteFile_perm opts entry inc2 exc2 hi he

/-- Witness for C10 at concrete inputs: the existential characterization at
a two-pattern list, a transposition, duplication, and the verdict under a
transposed include list. -/
theorem matches_decision_order_insensitive_witness :
    matchesPats (asciiStr "a") [patB, patA] =
      matchesPats (asciiStr "a") [patA, patB] ∧
    shouldWriteFile { optsPlain with includePatterns := [patA, patB] }
        entryA =
      shouldWriteFile { optsPlain with includePatterns := [patB, patA],
                                       excludePatterns := [] } entryA :=
  ⟨(matches_decision_order_insensitive (asciiStr "a") [patB, patA]).2.1
      [patA, patB] (List.Perm.swap patA patB []),
   (matches_decision_order_insensitive (asciiStr "a")
        [patA, patB]).2.2.2
      { optsPlain with includePatterns := [patA, patB] } entryA
      [patB, patA] [] (List.Perm.swap patB patA []) (List.Perm.refl [])⟩

/-! ## C6: size filter semantics -/

/-- C6: the size filter skips a loaded blob iff a positive limit is
configured and the size is at least the limit; a size exactly equal to a
positive limit is skipped; a zero limit disables the filter, and with a
zero limit a file of any size that passed the earlier checks is accepted by
shouldWriteFile (provided its name passes the length check). -/
theorem size_filter_semantics (maxFileSizeBytes size : Int) :
    (sizeFilterSkips maxFileSizeBytes size = true ↔
      0 < maxFileSizeBytes ∧ maxFileSizeBytes ≤ size) ∧
    (0 < maxFileSizeBytes →
      sizeFilterSkips maxFileSizeBytes maxFileSizeBytes = true) ∧
    (sizeFilterSkips 0 size = false) ∧
    (∀ (opts : Options) (entry : TreeEntry),
      opts.maxFileSizeBytes = 0 → entry.blob = .ok size →
      preBlobPass opts entry = true → nameTooLong entry.name = false →
      shouldWriteFile opts entry = .write size) := by
  refine ⟨?_, ?_, ?_, ?_⟩
  · simp [sizeFilterSkips, ge_iff_le]
  · intro h
    simp [sizeFilterSkips, h, le_refl]
  · simp [sizeFilterSkips]
  · intro opts entry hmax hblob hpre hname
    simp [shouldWriteFile, hpre, hblob, hmax, sizeFilterSkips, hname]

/-- Witness for C6 at concrete inputs: limit 6 skips size 6, and with a
zero limit the concrete entry "a" of size 5 is accepted. -/
theorem size_filter_semantics_witness :
    sizeFilterSkips 6 6 = true ∧
    shouldWriteFile optsPlain entryA = .write 5 :=
  ⟨(size_filter_semantics 6 6).2.1 (by decide),
   (size_filter_semantics 0 5).2.2.2 optsPlain entryA (by decide)
     (by decide) (by decide) (by decide)⟩

/-! ## C7: the length check is not a pre-blob filter -/

/-- C7 counterexample: a regular file entry whose base name is 300 bytes
long passes every cheap filter under empty options, so its blob IS
requested — and a blob-load failure (here packfile-not-found) does occur
for it, which the claim says is impossible. -/
theorem length_check_counterexample :
    255 < (goFilepathBase entryLongName.name).length ∧
    preBlobPass optsPlain entryLongName = true ∧
    shouldWriteFile optsPlain entryLongName = .err .packfileNotFound := by
  have hpre : preBlobPass optsPlain entryLongName = true := by decide
  have hblob : entryLongName.blob = .err .packfileNotFound := rfl
  exact ⟨by decide, hpre, by simp [shouldWriteFile, hpre, hblob]⟩

/-- C7 amended: an entry with base name over 255 bytes or path over 4095
bytes is never accepted by shouldWriteFile; but the length check runs only
after the blob load and the size filter, so whether the blob is requested
(preBlobPass) does not depend on the name length, and a blob-load error is
surfaced for such an entry exactly when it passes the cheap filters. -/
theorem length_check_after_blob_load (opts : Options) (entry : TreeEntry)
    (h : 255 < (goFilepathBase entry.name).length ∨
         4095 < entry.name.length) :
    (∀ size, shouldWriteFile opts entry ≠ .write size) ∧
    (∀ e, shouldWriteFile opts entry = .err e ↔
      preBlobPass opts entry = true ∧ entry.blob = .err e) := by
  have hlong : nameTooLong entry.name = true := by
    rcases h with h | h
    · simp [nameTooLong, h]
    · simp [nameTooLong, h]
  constructor
  · intro size
    cases hpre : preBlobPass opts entry with
    | false => simp [shouldWriteFile, hpre]
    | true =>
      cases hblob : entry.blob with
      | err e => simp [shouldWriteFile, hpre, hblob]
      | ok s =>
        cases hsz : sizeFilterSkips opts.maxFileSizeBytes s with
        | true => simp [shouldWriteFile, hpre, hblob, hsz]
        | false => simp [shouldWriteFile, hpre, hblob, hsz, hlong]
  · intro e
    cases hpre : preBlobPass opts entry with
    | false => simp [shouldWriteFile, hpre]
    | true =>
      cases hblob : entry.blob with
      | err e2 => simp [shouldWriteFile, hpre, hblob]
      | ok s =>
        cases hsz : sizeFilterSkips opts.maxFileSizeBytes s with
        | true => simp [shouldWriteFile, hpre, hblob, hsz]
        | false => simp [shouldWriteFile, hpre, hblob, hsz, hlong]

/-- Witness for C7 amended, at the concrete long-named entry: never
accepted, and its packfile-not-found blob error is surfaced. -/
theorem length_check_after_blob_load_witness :
    (∀ size, shouldWriteFile optsPlain entryLongName ≠ .write size) ∧
    (∀ e, shouldWriteFile optsPlain entryLongName = .err e ↔
      preBlobPass optsPlain entryLongName = true ∧
      entryLongName.blob = .err e) :=
  length_check_after_blob_load optsPlain entryLongName (Or.inl (by decide))

/-! ## C3: text-extension classification -/

/-- A regular file entry with no extension in its name. -/
def entryNoExt : TreeEntry :=
  { name := asciiStr "Makefile", mode := ⟨true, false, false⟩,
    hashHex := asciiStr "ab01", blob := .ok 10, writeOutcome := .written }

/-- C3, evaluated at the failing input: the current util/extension.go
returns true for the empty extension, so under text_only a file with no
extension IS skipped by the filter pipeline — contradicting the claim
(and the repository's own earlier revision, which returns false there
with an intent comment, and its test suite, which expects the text-only
output to be unchanged).  The ".zip" and ".java" cases behave as claimed. -/
theorem text_extension_empty_eval :
    NotTextExt (asciiStr "") = true ∧
    NotTextExt (asciiStr ".zip") = true ∧
    NotTextExt (asciiStr ".java") = false ∧
    notTextExtPrior (asciiStr "") = false ∧
    goFilepathExt (asciiStr "Makefile") = asciiStr "" ∧
    shouldWriteFile { optsPlain with textFilesOnly := true } entryNoExt
      = .skip ∧
    shouldWriteFile optsPlain entryNoExt = .write 10 := by decide

/-! ## git/git.go: the snapshot loop and the index manifest -/

/-- util/errors.go: ERROR_BAD_CLONE_GIT. -/
def ERROR_BAD_CLONE_GIT : Nat := 202

/-- util/errors.go: ERROR_FILES_DISCREPANCY. -/
def ERROR_FILES_DISCREPANCY : Nat := 206

/-- A fatal engine error: an ErrorWithCode carrying a status code, or a
generic (uncoded) error. -/
inductive SnapError
  | withCode (statusCode : Nat)
  | generic
  deriving DecidableEq

/-- The TSV header row written when the index file is created. -/
def indexHeaderRow : List GoStr :=
  [asciiStr "Path", asciiStr "BlobId", asciiStr "IsFile"]

/-- Go strconv.FormatBool. -/
def formatBool (b : Bool) : GoStr :=
  if b then asciiStr "true" else asciiStr "false"

/-- git.go addEntryToIndexFile: when an index writer exists and the name
is a valid UTF-8 string, append the record (path, blob id hex, is-file).
The source checks utf8.ValidString(name) and nothing else. -/
def addEntryToIndexFile (indexOn : Bool) (rows : List (List GoStr))
    (name : GoStr) (entry : TreeEntry) : List (List GoStr) :=
  if indexOn && utf8Valid name then
    rows ++ [[name, entry.hashHex, formatBool entry.mode.isFile]]
  else rows

/-- The loop state of git.go snapshot: totalCount, writtenCount, and the
rows written to the index file so far. -/
structure SnapState where
  totalCount : Int
  writtenCount : Int
  rows : List (List GoStr)
  deriving DecidableEq

/-- What the loop body of git.go snapshot does with one file entry after
incrementing totalCount: skip it (continue past the index write), fall
through to the index write, or abort the run. -/
inductive StepOutcome
  | skipEntry (st : SnapState)
  | toIndex (st : SnapState)
  | abort (e : SnapError)

/-- The file-entry part of the loop body of git.go snapshot: run
shouldWriteFile; object-not-found is logged and skipped, packfile-not-found
aborts with bad-clone-git (202), any other blob error aborts generically; a
filtered entry is skipped; a passing entry is written unless indexOnly
(a write skipped for ENAMETOOLONG/EINVAL does not count as written; a
failing write aborts). -/
def snapStepFile (opts : Options) (indexOnly : Bool) (entry : TreeEntry)
    (st : SnapState) : StepOutcome :=
  match shouldWriteFile opts entry with
  | .err .objectNotFound => .skipEntry st
  | .err .packfileNotFound => .abort (.withCode ERROR_BAD_CLONE_GIT)
  | .err .other => .abort .generic
  | .skip => .skipEntry st
  | .write _ =>
    if !indexOnly then
      match entry.writeOutcome with
      | .failed => .abort .generic
      | .written => .toIndex { st with writtenCount := st.writtenCount + 1 }
      | .skippedFs => .toIndex st
    else .toIndex st

/-- The walker loop of git.go snapshot over the entries the tree walker
yields: count every entry; in a dry run do nothing else; otherwise process
file entries through snapStepFile and write the index row for every entry
that falls through. -/
def snapLoop (opts : Options) (indexOn indexOnly dryRun : Bool) :
    SnapState → List TreeEntry → Except SnapError SnapState
  | st, [] => .ok st
  | st, entry :: rest =>
    let st1 : SnapState := { st with totalCount := st.totalCount + 1 }
    if dryRun then snapLoop opts indexOn indexOnly dryRun st1 rest
    else
      match
        (if entry.mode.isFile then snapStepFile opts indexOnly entry st1
         else .toIndex st1) with
      | .abort e => .error e
      | .skipEntry st2 => snapLoop opts indexOn indexOnly dryRun st2 rest
      | .toIndex st2 =>
        snapLoop opts indexOn indexOnly dryRun
          { st2 with
            rows := addEntryToIndexFile indexOn st2.rows entry.name entry }
          rest

/-- git.go snapshot: the index file (with its header) exists only when an
index path is configured and this is not a dry run; then the walker loop
runs from zero counts. -/
def snapshotGo (opts : Options) (indexOn indexOnly dryRun : Bool)
    (entries : List TreeEntry) : Except SnapError SnapState :=
  snapLoop opts indexOn indexOnly dryRun
    { totalCount := 0, writtenCount := 0,
      rows := if indexOn && !dryRun then [indexHeaderRow] else [] } entries

/-! ## C5: blob-load error classification -/

/-- C5: for a file entry that passes the cheap filters, an
object-not-found blob failure is skipped and the run continues with only
totalCount bumped (no row, no write); a packfile-not-found failure aborts
the whole run with the bad-clone-git error, whose code is 202; any other
blob failure aborts the run with a generic, uncoded error. -/
theorem blob_error_classification (opts : Options) (entry : TreeEntry)
    (st : SnapState) (rest : List TreeEntry) (indexOn indexOnly : Bool)
    (hfile : entry.mode.isFile = true)
    (hpre : preBlobPass opts entry = true) :
    (entry.blob = .err .objectNotFound →
      snapLoop opts indexOn indexOnly false st (entry :: rest) =
        snapLoop opts indexOn indexOnly false
          { st with totalCount := st.totalCount + 1 } rest) ∧
    (entry.blob = .err .packfileNotFound →
      snapLoop opts indexOn indexOnly false st (entry :: rest) =
        .error (.withCode ERROR_BAD_CLONE_GIT)) ∧
    (entry.blob = .err .other →
      snapLoop opts indexOn indexOnly false st (entry :: rest) =
        .error .generic) ∧
    ERROR_BAD_CLONE_GIT = 202 := by
  refine ⟨?_, ?_, ?_, rfl⟩ <;> intro hblob <;>
    simp [snapLoop, snapStepFile, shouldWriteFile, hpre, hblob, hfile]

/-- A file entry passing the cheap filters whose blob is absent
(object-not-found), as in a partial clone. -/
def entryMissingBlob : TreeEntry :=
  { name := asciiStr "m", mode := ⟨true, false, false⟩,
    hashHex := asciiStr "cc01", blob := .err .objectNotFound,
    writeOutcome := .written }

/-- Witness for C5 at a concrete input: the missing-blob entry is skipped
and the run continues over the remaining entries. -/
theorem blob_error_classification_witness :
    snapLoop optsPlain true false false ⟨0, 0, [indexHeaderRow]⟩
        [entryMissingBlob, entryA] =
      snapLoop optsPlain true false false ⟨1, 0, [indexHeaderRow]⟩
        [entryA] :=
  (blob_error_classification optsPlain entryMissingBlob
      ⟨0, 0, [indexHeaderRow]⟩ [entryA] true false (by decide)
      (by decide)).1 (by decide)

/-! ## C2: the index manifest -/

/-- The index row an entry contributes during a successful non-dry run, if
any: a row exactly when the name is valid UTF-8 and the entry is a
directory or a file accepted by the filter pipeline. -/
def indexRowOf (opts : Options) (entry : TreeEntry) :
    Option (List GoStr) :=
  if utf8Valid entry.name &&
      (!entry.mode.isFile ||
        (match shouldWriteFile opts entry with
         | .write _ => true
         | _ => false)) then
    some [entry.name, entry.hashHex, formatBool entry.mode.isFile]
  else none

/-- Rows accumulated by the walker loop of a successful non-dry indexing
run: one row per entry as given by indexRowOf, appended in walk order. -/
theorem snapLoop_rows (opts : Options) (indexOnly : Bool)
    (entries : List TreeEntry) :
    ∀ st0 st : SnapState,
      snapLoop opts true indexOnly false st0 entries = .ok st →
      st.rows = st0.rows ++ entries.filterMap (indexRowOf opts) := by
  induction entries with
  | nil =>
    intro st0 st h
    simp only [snapLoop] at h
    cases h
    simp
  | cons entry rest ih =>
    intro st0 st h
    cases hfile : entry.mode.isFile with
    | false =>
      simp only [snapLoop, hfile] at h
      simp at h
      have hr := ih _ st h
      cases hv : utf8Valid entry.name with
      | true =>
        simp only [addEntryToIndexFile, hv, Bool.and_true, if_pos rfl] at hr
        simp [hr, indexRowOf, hfile, hv, List.filterMap_cons]
      | false =>
        simp [addEntryToIndexFile, hv] at hr
        simp [hr, indexRowOf, hfile, hv, List.filterMap_cons]
    | true =>
      cases hsw : shouldWriteFile opts entry with
      | skip =>
        simp [snapLoop, snapStepFile, hfile, hsw] at h
        have hr := ih _ st h
        simp [hr, indexRowOf, hfile, hsw, List.filterMap_cons]
      | err e =>
        cases e with
        | objectNotFound =>
          simp [snapLoop, snapStepFile, hfile, hsw] at h
          have hr := ih _ st h
          simp [hr, indexRowOf, hfile, hsw, List.filterMap_cons]
        | packfileNotFound =>
          simp [snapLoop, snapStepFile, hfile, hsw] at h
        | other =>
          simp [snapLoop, snapStepFile, hfile, hsw] at h
      | write s =>
        cases hio : indexOnly with
        | true =>
          simp only [hio] at ih
          simp [snapLoop, snapStepFile, hfile, hsw, hio] at h
          have hr := ih _ st h
          cases hv : utf8Valid entry.name with
          | true =>
            simp [addEntryToIndexFile, hv] at hr
            simp [hr, indexRowOf, hfile, hsw, hv, List.filterMap_cons]
          | false =>
            simp [addEntryToIndexFile, hv] at hr
            simp [hr, indexRowOf, hfile, hsw, hv, List.filterMap_cons]
        | false =>
          simp only [hio] at ih
          cases hw : entry.writeOutcome with
          | failed =>
            simp [snapLoop, snapStepFile, hfile, hsw, hio, hw] at h
          | written =>
            simp [snapLoop, snapStepFile, hfile, hsw, hio, hw] at h
            have hr := ih _ st h
            cases hv : utf8Valid entry.name with
            | true =>
              simp [addEntryToIndexFile, hv] at hr
              simp [hr, indexRowOf, hfile, hsw, hv, List.filterMap_cons]
            | false =>
              simp [addEntryToIndexFile, hv] at hr
              simp [hr, indexRowOf, hfile, hsw, hv, List.filterMap_cons]
          | skippedFs =>
            simp [snapLoop, snapStepFile, hfile, hsw, hio, hw] at h
            have hr := ih _ st h
            cases hv : utf8Valid entry.name with
            | true =>
              simp [addEntryToIndexFile, hv] at hr
              simp [hr, indexRowOf, hfile, hsw, hv, List.filterMap_cons]
            | false =>
              simp [addEntryToIndexFile, hv] at hr
              simp [hr, indexRowOf, hfile, hsw, hv, List.filterMap_cons]

/-- Options with exclude [patA] and nothing else configured. -/
def optsExcA : Options := { optsPlain with excludePatterns := [patA] }

/-- A regular file entry whose path contains a newline byte (10) and is
valid UTF-8. -/
def entryNewline : TreeEntry :=
  { name := [97, 10, 98], mode := ⟨true, false, false⟩,
    hashHex := asciiStr "bb01", blob := .ok 3, writeOutcome := .written }

/-- C2 counterexample: a concrete successful indexing run in which (a) the
file entry "a", although enumerated by the walker, gets NO manifest row —
it is rejected by the exclude filter and the loop continues past the index
write — and (b) the entry whose path contains a newline DOES get a row.
The claim requires exactly one row for "a" and no row for the newline
path, so it is false on both counts. -/
theorem manifest_counterexample :
    snapshotGo optsExcA true false false [entryA, entryNewline] =
      .ok { totalCount := 2, writtenCount := 1,
            rows := [indexHeaderRow,
                     [[97, 10, 98], asciiStr "bb01", asciiStr "true"]] } :=
  rfl

/-- C2 amended: after a successful (non-dry-run) snapshot pass with an
index path configured the manifest is the header row followed by exactly
one TSV row (path, blob id hex, is-file flag) for every enumerated entry
that is a directory or a file accepted by the filter pipeline, in walk
order; rows whose path is not valid UTF-8 are omitted (paths containing
newlines get no special treatment, and filtered-out files get no row). -/
theorem manifest_rows (opts : Options) (indexOnly : Bool)
    (entries : List TreeEntry) (st : SnapState)
    (h : snapshotGo opts true indexOnly false entries = .ok st) :
    st.rows = indexHeaderRow :: entries.filterMap (indexRowOf opts) := by
  simp only [snapshotGo, Bool.not_false, Bool.and_self, if_pos] at h
  have hr := snapLoop_rows opts indexOnly entries _ st h
  simpa using hr

/-- Witness for C2 amended at the concrete run of the counterexample
fixtures. -/
theorem manifest_rows_witness :
    ({ totalCount := 2, writtenCount := 1,
       rows := [indexHeaderRow,
                [[97, 10, 98], asciiStr "bb01", asciiStr "true"]] } :
        SnapState).rows =
      indexHeaderRow ::
        [entryA, entryNewline].filterMap (indexRowOf optsExcA) :=
  manifest_rows optsExcA false [entryA, entryNewline] _ rfl

/-! ## git/git.go Snapshot: the discrepancy double-check retry loop -/

/-- git.go DISCREPANCY_ATTEMPTS. -/
def DISCREPANCY_ATTEMPTS : Nat := 3

/-- git.go DISCREPANCY_DELAY (3 * time.Second), in seconds. -/
def DISCREPANCY_DELAY_SECONDS : Nat := 3

/-- The observable effects of the retry section of Snapshot, in order:
blocking sleeps, commit re-resolutions, and snapshot passes (dry or
real). -/
inductive RunEvent
  | sleep (seconds : Nat)
  | reResolveCommit
  | snapshotPass (dryRun : Bool)
  deriving DecidableEq

/-- The walker's answers for one attempt: the entries seen by the dry pass
and by the real pass.  The two passes (and different attempts) may see
different trees because the clone can be mutated underneath the run. -/
structure AttemptEnv where
  dryEntries : List TreeEntry
  realEntries : List TreeEntry

/-- The for-loop of git.go Snapshot (attempt = 1, 2, 3): before attempts
after the first, sleep DISCREPANCY_DELAY and re-resolve the commit; run a
dry pass then a real pass (either failure aborts); accept when the totals
agree; on the last attempt fail with files-discrepancy, else retry.  (The
source exits via attempt == DISCREPANCY_ATTEMPTS; since attempts start at
1 this is equivalent to the ≤ guard used here, which makes termination
structural.) -/
def retryLoop (opts : Options) (indexOn indexOnly : Bool)
    (env : Nat → AttemptEnv) (attempt : Nat) :
    Except SnapError (Int × Int) × List RunEvent :=
  let pre : List RunEvent :=
    if attempt > 1 then [.sleep DISCREPANCY_DELAY_SECONDS, .reResolveCommit]
    else []
  match snapshotGo opts indexOn indexOnly true (env attempt).dryEntries with
  | .error e => (.error e, pre ++ [.snapshotPass true])
  | .ok dryR =>
    match
      snapshotGo opts indexOn indexOnly false (env attempt).realEntries with
    | .error e => (.error e, pre ++ [.snapshotPass true, .snapshotPass false])
    | .ok realR =>
      if realR.totalCount = dryR.totalCount then
        (.ok (realR.totalCount, realR.writtenCount),
         pre ++ [.snapshotPass true, .snapshotPass false])
      else if DISCREPANCY_ATTEMPTS ≤ attempt then
        (.error (.withCode ERROR_FILES_DISCREPANCY),
         pre ++ [.snapshotPass true, .snapshotPass false])
      else
        let next := retryLoop opts indexOn indexOnly env (attempt + 1)
        (next.1, pre ++ [.snapshotPass true, .snapshotPass false] ++ next.2)
termination_by DISCREPANCY_ATTEMPTS + 1 - attempt
decreasing_by
  simp only [DISCREPANCY_ATTEMPTS] at *
  omega

/-- The double-check section of git.go Snapshot: with skip_double_check a
single real pass; otherwise the retry loop starting at attempt 1. -/
def snapshotWithRetry (opts : Options) (indexOn indexOnly : Bool)
    (env : Nat → AttemptEnv) :
    Except SnapError (Int × Int) × List RunEvent :=
  if opts.skipDoubleCheck then
    match
      snapshotGo opts indexOn indexOnly false (env 1).realEntries with
    | .error e => (.error e, [.snapshotPass false])
    | .ok r => (.ok (r.totalCount, r.writtenCount), [.snapshotPass false])
  else retryLoop opts indexOn indexOnly env 1

/-- The event trace of k attempts of the double-check loop: each attempt is
a dry pass then a real pass, and every attempt after the first is preceded
by a 3-second sleep and a commit re-resolution. -/
def attemptsTrace : Nat → List RunEvent
  | 0 => []
  | 1 => [.snapshotPass true, .snapshotPass false]
  | n + 2 =>
    attemptsTrace (n + 1) ++
      [.sleep DISCREPANCY_DELAY_SECONDS, .reResolveCommit,
       .snapshotPass true, .snapshotPass false]

/-! ## C4: the double-check retry loop -/

/-- C4: with skip_double_check=false, when every dry and real pass of the
three possible attempts succeeds with the given counts, the engine accepts
at the first attempt whose real total equals its dry total — producing
that attempt's counts and the trace of exactly that many attempts (each a
dry pass then a real pass, with a 3-second sleep and a commit
re-resolution before every attempt after the first) — and if all three
attempts disagree it fails with the files-discrepancy error, whose status
code is 206. -/
theorem double_check_retry (opts : Options) (indexOn indexOnly : Bool)
    (env : Nat → AttemptEnv) (d1 r1 d2 r2 d3 r3 : SnapState)
    (hskip : opts.skipDoubleCheck = false)
    (hd1 : snapshotGo opts indexOn indexOnly true (env 1).dryEntries
      = .ok d1)
    (hr1 : snapshotGo opts indexOn indexOnly false (env 1).realEntries
      = .ok r1)
    (hd2 : snapshotGo opts indexOn indexOnly true (env 2).dryEntries
      = .ok d2)
    (hr2 : snapshotGo opts indexOn indexOnly false (env 2).realEntries
      = .ok r2)
    (hd3 : snapshotGo opts indexOn indexOnly true (env 3).dryEntries
      = .ok d3)
    (hr3 : snapshotGo opts indexOn indexOnly false (env 3).realEntries
      = .ok r3) :
    snapshotWithRetry opts indexOn indexOnly env =
      (if r1.totalCount = d1.totalCount then
        (.ok (r1.totalCount, r1.writtenCount), attemptsTrace 1)
      else if r2.totalCount = d2.totalCount then
        (.ok (r2.totalCount, r2.writtenCount), attemptsTrace 2)
      else if r3.totalCount = d3.totalCount then
        (.ok (r3.totalCount, r3.writtenCount), attemptsTrace 3)
      else
        (.error (.withCode ERROR_FILES_DISCREPANCY), attemptsTrace 3)) ∧
    ERROR_FILES_DISCREPANCY = 206 := by
  refine ⟨?_, rfl⟩
  by_cases e1 : r1.totalCount = d1.totalCount
  · simp [snapshotWithRetry, hskip, retryLoop, hd1, hr1, e1,
      attemptsTrace]
  · by_cases e2 : r2.totalCount = d2.totalCount
    · simp [snapshotWithRetry, hskip, retryLoop, DISCREPANCY_ATTEMPTS,
        hd1, hr1, hd2, hr2, e1, e2, attemptsTrace]
    · by_cases e3 : r3.totalCount = d3.totalCount
      · simp [snapshotWithRetry, hskip, retryLoop, DISCREPANCY_ATTEMPTS,
          hd1, hr1, hd2, hr2, hd3, hr3, e1, e2, e3, attemptsTrace]
      · simp [snapshotWithRetry, hskip, retryLoop, DISCREPANCY_ATTEMPTS,
          hd1, hr1, hd2, hr2, hd3, hr3, e1, e2, e3, attemptsTrace]

/-- A concrete walker environment: on the first attempt the dry pass sees
nothing and the real pass sees one file; from the second attempt on, both
passes see that file. -/
def envW : Nat → AttemptEnv := fun i =>
  if i = 1 then ⟨[], [entryA]⟩ else ⟨[entryA], [entryA]⟩

/-- Witness for C4 at the concrete environment envW: attempt 1 disagrees
(0 vs 1), attempt 2 agrees, so the run is accepted with attempt 2's counts
after a trace of exactly two attempts. -/
theorem double_check_retry_witness :
    snapshotWithRetry optsPlain false false envW =
      (.ok (1, 1), attemptsTrace 2) := by
  have h := double_check_retry optsPlain false false envW
    ⟨0, 0, []⟩ ⟨1, 1, []⟩ ⟨1, 0, []⟩ ⟨1, 1, []⟩ ⟨1, 0, []⟩ ⟨1, 1, []⟩
    rfl rfl rfl rfl rfl rfl rfl
  rw [h.1]
  norm_num

/-! ## stats/stats.go: the stats aggregator -/

/-- stats/stats.go LanguageStats.  LinesOfCode is a float64 in the source;
it is only ever fed integer line counts, and the properties proved here
(file-count sum and signs) are insensitive to the float representation, so
it is modelled as an integer. -/
structure LanguageStats where
  numberOfFiles : Int
  linesOfCode : Int
  deriving DecidableEq

/-- stats/stats.go CodeStats: the Go map CountersByLanguage is modelled as
an association list with at most one entry per language. -/
structure CodeStats where
  countersByLanguage : List (String × LanguageStats)
  totalFileCount : Int
  totalSizeBytes : Int
  deriving DecidableEq

/-- stats/stats.go NewCodeStats: empty map, zero counters. -/
def NewCodeStats : CodeStats := ⟨[], 0, 0⟩

/-- The lookup-or-insert-then-mutate of stats.go AddFile on the language
map: create a zero record if the language is absent, then apply f to the
language's record. -/
def updateLanguage : List (String × LanguageStats) → String →
    (LanguageStats → LanguageStats) → List (String × LanguageStats)
  | [], language, f => [(language, f ⟨0, 0⟩)]
  | (k, v) :: rest, language, f =>
    if k = language then (k, f v) :: rest
    else (k, v) :: updateLanguage rest language f

/-- stats/stats.go AddFile: bump TotalFileCount and totalSizeBytes, then
increment the language's NumberOfFiles and add the lines of code. -/
def AddFile (cs : CodeStats) (language : String) (linesOfCode : Int)
    (sizeBytes : Int) : CodeStats :=
  { countersByLanguage :=
      updateLanguage cs.countersByLanguage language (fun s =>
        ⟨s.numberOfFiles + 1, s.linesOfCode + linesOfCode⟩),
    totalFileCount := cs.totalFileCount + 1,
    totalSizeBytes := cs.totalSizeBytes + sizeBytes }

/-- A finite sequence of AddFile calls applied to a fresh CodeStats; each
call is (language, linesOfCode, sizeBytes). -/
def runAddFiles (calls : List (String × Int × Int)) : CodeStats :=
  calls.foldl (fun cs c => AddFile cs c.1 c.2.1 c.2.2) NewCodeStats

/-- The sum of NumberOfFiles over all language buckets. -/
def sumFiles (cs : CodeStats) : Int :=
  (cs.countersByLanguage.map (fun kv => kv.2.numberOfFiles)).sum

/-- updateLanguage with a counter-incrementing function raises the bucket
sum by exactly one (also when inserting a fresh bucket). -/
theorem updateLanguage_sum (m : List (String × LanguageStats))
    (language : String) (f : LanguageStats → LanguageStats)
    (hf : ∀ s, (f s).numberOfFiles = s.numberOfFiles + 1) :
    ((updateLanguage m language f).map
        (fun kv => kv.2.numberOfFiles)).sum =
      (m.map (fun kv => kv.2.numberOfFiles)).sum + 1 := by
  induction m with
  | nil => simp [updateLanguage, hf]
  | cons kv rest ih =>
    by_cases hk : kv.1 = language
    · simp [updateLanguage, hk, hf]
      omega
    · simp [updateLanguage, hk, ih]
      omega

/-- Every entry of updateLanguage m language f is an untouched old entry,
f applied to an old entry's record, or a fresh f-of-zero record. -/
theorem updateLanguage_mem (m : List (String × LanguageStats))
    (language : String) (f : LanguageStats → LanguageStats)
    (kv : String × LanguageStats)
    (h : kv ∈ updateLanguage m language f) :
    kv ∈ m ∨ (∃ kv2 ∈ m, kv = (kv2.1, f kv2.2)) ∨
      kv = (language, f ⟨0, 0⟩) := by
  induction m with
  | nil =>
    simp [updateLanguage] at h
    exact Or.inr (Or.inr h)
  | cons kv2 rest ih =>
    by_cases hk : kv2.1 = language
    · simp [updateLanguage, hk] at h
      rcases h with h | h
      · exact Or.inr (Or.inl ⟨kv2, by simp, by simp [h, hk]⟩)
      · exact Or.inl (by simp [h])
    · simp [updateLanguage, hk] at h
      rcases h with h | h
      · exact Or.inl (by simp [h])
      · rcases ih h with h2 | h2 | h2
        · exact Or.inl (by simp [h2])
        · rcases h2 with ⟨kv3, hm, he⟩
          exact Or.inr (Or.inl ⟨kv3, by simp [hm], he⟩)
        · exact Or.inr (Or.inr h2)

/-- One AddFile call preserves the aggregator invariants: the running
total equals the bucket sum, all file counters stay non-negative, and —
when the added line count is non-negative — all line counters stay
non-negative. -/
theorem AddFile_inv (cs : CodeStats) (language : String)
    (linesOfCode sizeBytes : Int)
    (h1 : cs.totalFileCount = sumFiles cs)
    (h2 : ∀ kv ∈ cs.countersByLanguage, 0 ≤ kv.2.numberOfFiles) :
    (AddFile cs language linesOfCode sizeBytes).totalFileCount =
      sumFiles (AddFile cs language linesOfCode sizeBytes) ∧
    (∀ kv ∈ (AddFile cs language linesOfCode
        sizeBytes).countersByLanguage, 0 ≤ kv.2.numberOfFiles) ∧
    (0 ≤ linesOfCode →
      (∀ kv ∈ cs.countersByLanguage, 0 ≤ kv.2.linesOfCode) →
      ∀ kv ∈ (AddFile cs language linesOfCode
        sizeBytes).countersByLanguage, 0 ≤ kv.2.linesOfCode) := by
  refine ⟨?_, ?_, ?_⟩
  · have := updateLanguage_sum cs.countersByLanguage language
      (fun s => ⟨s.numberOfFiles + 1, s.linesOfCode + linesOfCode⟩)
      (fun s => rfl)
    simp only [AddFile, sumFiles] at *
    omega
  · intro kv hkv
    rcases updateLanguage_mem _ _ _ kv hkv with h | ⟨kv2, hm, he⟩ | he
    · exact h2 kv h
    · have := h2 kv2 hm
      simp [he]
      omega
    · simp [he]
  · intro hloc h3 kv hkv
    rcases updateLanguage_mem _ _ _ kv hkv with h | ⟨kv2, hm, he⟩ | he
    · exact h3 kv h
    · have := h3 kv2 hm
      simp [he]
      omega
    · simp [he]
      omega

/-- The aggregator invariants hold for any sequence of AddFile calls
applied to any state that satisfies them. -/
theorem foldl_AddFile_inv (calls : List (String × Int × Int)) :
    ∀ cs : CodeStats,
      cs.totalFileCount = sumFiles cs →
      (∀ kv ∈ cs.countersByLanguage, 0 ≤ kv.2.numberOfFiles) →
      (calls.foldl (fun cs2 c => AddFile cs2 c.1 c.2.1 c.2.2)
          cs).totalFileCount =
        sumFiles (calls.foldl (fun cs2 c => AddFile cs2 c.1 c.2.1 c.2.2)
          cs) ∧
      (∀ kv ∈ (calls.foldl (fun cs2 c => AddFile cs2 c.1 c.2.1 c.2.2)
          cs).countersByLanguage, 0 ≤ kv.2.numberOfFiles) ∧
      ((∀ c ∈ calls, 0 ≤ c.2.1) →
        (∀ kv ∈ cs.countersByLanguage, 0 ≤ kv.2.linesOfCode) →
        ∀ kv ∈ (calls.foldl (fun cs2 c => AddFile cs2 c.1 c.2.1 c.2.2)
          cs).countersByLanguage, 0 ≤ kv.2.linesOfCode) := by
  induction calls with
  | nil =>
    intro cs h1 h2
    exact ⟨h1, h2, fun _ h3 => h3⟩
  | cons c rest ih =>
    intro cs h1 h2
    have hA := AddFile_inv cs c.1 c.2.1 c.2.2 h1 h2
    have hr := ih (AddFile cs c.1 c.2.1 c.2.2) hA.1 hA.2.1
    refine ⟨hr.1, hr.2.1, fun hlocs h3 => hr.2.2 ?_ (hA.2.2 ?_ h3)⟩
    · intro c2 hc2
      exact hlocs c2 (List.mem_cons_of_mem _ hc2)
    · exact hlocs c (List.mem_cons_self _ _)

/-! ## C9: stats aggregator invariant -/

/-- C9: starting from a fresh CodeStats, after every finite sequence of
AddFile(language, loc, size) calls the TotalFileCount equals the sum over
all languages of the per-language NumberOfFiles, every NumberOfFiles is
non-negative, and — when every call supplies a non-negative line count, as
the LOC counter always does — every LinesOfCode value is non-negative. -/
theorem stats_aggregator_invariant (calls : List (String × Int × Int)) :
    (runAddFiles calls).totalFileCount = sumFiles (runAddFiles calls) ∧
    (∀ kv ∈ (runAddFiles calls).countersByLanguage,
      0 ≤ kv.2.numberOfFiles) ∧
    ((∀ c ∈ calls, 0 ≤ c.2.1) →
      ∀ kv ∈ (runAddFiles calls).countersByLanguage,
        0 ≤ kv.2.linesOfCode) := by
  have h := foldl_AddFile_inv calls NewCodeStats (by rfl) (by simp [NewCodeStats])
  exact ⟨h.1, h.2.1, fun hlocs =>
    h.2.2 hlocs (by simp [NewCodeStats])⟩

/-- A concrete call sequence for the stats witness. -/
def callsW : List (String × Int × Int) :=
  [("java", 10, 100), ("go", 5, 50), ("java", 7, 70)]

/-- Witness for C9 at the concrete call sequence callsW. -/
theorem stats_aggregator_invariant_witness :
    (runAddFiles callsW).totalFileCount = sumFiles (runAddFiles callsW) ∧
    (∀ kv ∈ (runAddFiles callsW).countersByLanguage,
      0 ≤ kv.2.linesOfCode) :=
  ⟨(stats_aggregator_invariant callsW).1,
   (stats_aggregator_invariant callsW).2.2 (by decide)⟩

/-! ## The LOC counter's block-comment start heuristic -/

/-- Go strings.Cut(s, sep): the parts before and after the first
occurrence of sep in s, or none when sep does not occur. -/
def cutGo (sep : GoStr) : GoStr → Option (GoStr × GoStr)
  | [] => if sep.isPrefixOf [] then some ([], []) else none
  | b :: rest =>
    if sep.isPrefixOf (b :: rest) then
      some ([], (b :: rest).drop sep.length)
    else
      match cutGo sep rest with
      | none => none
      | some (before, after) => some (b :: before, after)

/-- The "/*" token, as bytes. -/
def commentOpenBytes : GoStr := [47, 42]

/-- The bytes that disqualify a comment start when found right after
"/*": single quote (39), double quote (34), dot (46). -/
def commentStopBytes : List Nat := [39, 34, 46]

/-- Go strings.ContainsAny for a byte set. -/
def containsAnyBytes (s : GoStr) (chars : List Nat) : Bool :=
  s.any (fun b => chars.contains b)

/-- The LOC counter's isStartOfMultiLineComment: cut at the first "/*";
the line qualifies unless MORE THAN ONE byte follows the "/*" and the
first of them is a quote or a dot (source: the next-byte test sits under
len(after) > 1). -/
def isStartOfMultiLineComment (cleanLine : GoStr) : Bool :=
  match cutGo commentOpenBytes cleanLine with
  | none => false
  | some (_, after) =>
    if after.length > 1 then !containsAnyBytes (after.take 1) commentStopBytes
    else true

/-- The bytes after the first "/*" of the line, when the line has one. -/
def afterFirstOpen (line : GoStr) : Option GoStr :=
  (cutGo commentOpenBytes line).map (fun pr => pr.2)

/-- The classification rule exactly as the claim states it: a comment
start iff the line contains "/*" and the byte immediately following the
first "/*" (when there is one) is not a quote or a dot. -/
def commentStartClaimed (line : GoStr) : Bool :=
  match afterFirstOpen line with
  | none => false
  | some [] => true
  | some (b :: _) => !commentStopBytes.contains b

/-- The amended rule: as claimed, except that the byte after "/*" is
consulted only when at least two bytes follow it. -/
def commentStartAmendedSpec (line : GoStr) : Bool :=
  match afterFirstOpen line with
  | none => false
  | some (b :: _ :: _) => !commentStopBytes.contains b
  | some _ => true

/-- cutGo finds sep exactly when sep occurs as an infix. -/
theorem cutGo_isSome_iff_infix (sep : GoStr) :
    ∀ s : GoStr, (cutGo sep s).isSome = true ↔ sep <:+: s := by
  intro s
  induction s with
  | nil =>
    by_cases h : sep.isPrefixOf ([] : GoStr)
    · simp only [cutGo, h, if_pos]
      simp [List.isPrefixOf_iff_prefix.mp h |> List.IsPrefix.isInfix]
    · simp only [cutGo, h, Bool.false_eq_true, if_false]
      simp only [Option.isSome_none, List.infix_nil]
      constructor
      · intro hcontra
        cases hcontra
      · intro hinf
        rw [hinf] at h
        simp [List.isPrefixOf] at h
  | cons b rest ih =>
    by_cases h : sep.isPrefixOf (b :: rest)
    · simp only [cutGo, h, if_pos]
      simp [List.isPrefixOf_iff_prefix.mp h |> List.IsPrefix.isInfix]
    · simp only [cutGo, h, Bool.false_eq_true, if_false]
      rw [List.infix_cons_iff]
      have hnp : ¬sep <+: b :: rest := fun hp =>
        h (List.isPrefixOf_iff_prefix.mpr hp)
      cases hc : cutGo sep rest with
      | none =>
        simp only [hc] at ih ⊢
        simp only [Option.isSome_none] at ih ⊢
        constructor
        · intro hcontra
          cases hcontra
        · rintro (hp | hinf)
          · exact absurd hp hnp
          · have := ih.mpr hinf
            cases this
      | some pr =>
        simp only [hc] at ih ⊢
        simp only [Option.isSome_some, true_iff] at ih
        simp [ih, hnp]

/-! ## C8: the block-comment start heuristic -/

/-- C8 counterexample: on the line "/\*." the byte after the first "/\*"
is a dot, so the claim says the line is NOT a comment start; the code
classifies it as one, because the next-byte test only runs when more than
one byte follows.  Likewise for "ab/\*" followed by a single quote. -/
theorem comment_start_counterexample :
    isStartOfMultiLineComment (asciiStr "/*.") = true ∧
    commentStartClaimed (asciiStr "/*.") = false ∧
    isStartOfMultiLineComment [97, 98, 47, 42, 39] = true ∧
    commentStartClaimed [97, 98, 47, 42, 39] = false := by decide

/-- C8 amended: a line starts a block comment iff it contains "/\*" and,
IN CASE at least two bytes follow the first "/\*", the first of them is
not a quote or a dot; when at most one byte follows, the line qualifies
unconditionally.  The second conjunct ties the scanner to the standard
substring (infix) relation. -/
theorem comment_start_heuristic_amended (line : GoStr) :
    isStartOfMultiLineComment line = commentStartAmendedSpec line ∧
    ((afterFirstOpen line).isSome = true ↔ commentOpenBytes <:+: line) := by
  constructor
  · simp only [isStartOfMultiLineComment, commentStartAmendedSpec,
      afterFirstOpen]
    cases hc : cutGo commentOpenBytes line with
    | none => rfl
    | some pr =>
      obtain ⟨before, after⟩ := pr
      cases after with
      | nil => simp
      | cons c rest2 =>
        cases rest2 with
        | nil => simp [containsAnyBytes]
        | cons d rest3 => simp [containsAnyBytes]
  · rw [show (afterFirstOpen line).isSome =
        (cutGo commentOpenBytes line).isSome from by simp [afterFirstOpen]]
    exact cutGo_isSome_iff_infix _ line

/-- Witness for C8 amended at the concrete line "x/\*ab". -/
theorem comment_start_heuristic_amended_witness :
    isStartOfMultiLineComment [120, 47, 42, 97, 98] =
      commentStartAmendedSpec [120, 47, 42, 97, 98] :=
  (comment_start_heuristic_amended [120, 47, 42, 97, 98]).1
